import Mathlib

/-!
Verification development for the PyOS 1.06 in-memory filesystem engine
(`src/PyOS1.06/pyos.py`).

The Python program stores the whole filesystem as one nested dictionary
(`in_memory_file_system`): file entries are strings, folder entries are
nested dictionaries, and the reserved root entry `".recyclebin"` is a
folder whose values are *record* dictionaries of the shape
`{'original_name': str, 'original_path': list, 'content': entry}` written
by `delete_selected_item`.

We embed Python values as the inductive `PyVal` below: `str` for strings,
`dict` for dictionaries (association lists; Python dictionaries have
unique keys, and all states built by the program keep keys unique), and
`pylist` for the Python `list` objects that occur as the `original_path`
field of recycle-bin records.  Dictionary primitives (`dget`, `dset`,
`ddel`, `hasKey`) mirror `d[k]` / `d[k] = v` / `del d[k]` / `k in d` on
unique-key dictionaries: `dset` replaces the value in place when the key
is present and appends otherwise (Python 3.7+ insertion order), `ddel`
erases the key.

Stateful methods of the `PyOS` class become pure functions from the root
dictionary (plus the explicit inputs the GUI supplies: current path,
entered names, the clock timestamp, dialog answers) to a result value.
A Python exception escaping the handler (AttributeError, KeyError,
TypeError) is modelled by a dedicated `crash` result, or by `none` for
`calculate_directory_size`.  GUI-only effects (tree views, labels,
message boxes) are not modelled; in particular `update_storage_display`
calls that happen *after* the state mutation of a handler are dropped,
while `calculate_directory_size` calls that guard a mutation are kept.
-/

namespace Pyos

/-- A Python value as used by the in-memory filesystem: a string (file
content or record field), a dictionary (folder / recycle-bin record), or
a Python list of strings (the `original_path` field of a bin record). -/
inductive PyVal where
  | str (s : String)
  | dict (entries : List (String × PyVal))
  | pylist (elems : List String)

/-- The root of `in_memory_file_system`: a Python dictionary, embedded as
an association list. -/
abbrev FS := List (String × PyVal)

/-- The reserved name of the hidden recycle-bin folder at the root. -/
def binName : String := ".recyclebin"

/-- `d[k]` as a lookup: the value of the first entry with key `k`. -/
def dget : List (String × PyVal) → String → Option PyVal
  | [], _ => none
  | (k', v) :: rest, k => if k' = k then some v else dget rest k

/-- `k in d`. -/
def hasKey (es : List (String × PyVal)) (k : String) : Bool :=
  (dget es k).isSome

/-- `d[k] = v`: replace the value in place when the key is present,
append the pair otherwise. -/
def dset : List (String × PyVal) → String → PyVal → List (String × PyVal)
  | [], k, v => [(k, v)]
  | (k', v') :: rest, k, v =>
    if k' = k then (k, v) :: rest else (k', v') :: dset rest k v

/-- `del d[k]`: erase the key (on unique-key dictionaries this is the
single entry the statement removes). -/
def ddel (es : List (String × PyVal)) (k : String) : List (String × PyVal) :=
  es.filter (fun p => !(p.1 = k : Bool))

mutual

/-- The inner `get_size` helper of `calculate_directory_size`: dictionaries
are summed recursively, any other value is sized by `len(value.encode('utf-8'))`.
A string has that byte length; a Python *list* has no `encode` method, so
the call raises `AttributeError` — modelled as `none`. -/
def get_size : PyVal → Option Nat
  | .str s => some s.utf8ByteSize
  | .pylist _ => none
  | .dict es => get_size_entries es

/-- The `for key, value in node.items()` summation loop of `get_size`. -/
def get_size_entries : List (String × PyVal) → Option Nat
  | [] => some 0
  | (_, v) :: rest =>
    match get_size v, get_size_entries rest with
    | some a, some b => some (a + b)
    | _, _ => none

end

/-- `calculate_directory_size`: `get_size` applied to the whole root
dictionary (`self.file_system`). -/
def calculate_directory_size (fs : FS) : Option Nat :=
  get_size (.dict fs)

/-- `get_current_node`: walk `current_path` from the root; at each step the
current node must be a dictionary containing the key, otherwise the method
returns a fresh empty dictionary `{}` (writes to which are lost). -/
def get_current_node : PyVal → List String → PyVal
  | v, [] => v
  | v, k :: rest =>
    match v with
    | .dict es =>
      match dget es k with
      | some c => get_current_node c rest
      | none => .dict []
    | _ => .dict []

/-- Spec-side path resolution (`PathResolver.resolve`), with `none` as the
`NotFound` signal: walks segments from the root; fails when an intermediate
entry is not a folder or the next segment is absent.  Used to compare the
spec's contract with `get_current_node`, and as the success predicate for
the aliasing writes of the mutating handlers (a write through the node
returned by `get_current_node` reaches the tree exactly when this walk
succeeds). -/
def resolve : PyVal → List String → Option PyVal
  | v, [] => some v
  | v, k :: rest =>
    match v with
    | .dict es =>
      match dget es k with
      | some c => resolve c rest
      | none => none
    | _ => none

/-- The target-path walk of `restore_item` (lines 665-674): each segment
must be present *and* map to a dictionary; on success returns the final
folder, otherwise `none` (the caller then falls back to the root). -/
def restoreWalk : PyVal → List String → Option PyVal
  | v, [] => some v
  | v, k :: rest =>
    match v with
    | .dict es =>
      match dget es k with
      | some (.dict cs) => restoreWalk (.dict cs) rest
      | _ => none
    | _ => none

/-- Python truthiness of the values that occur in the tree: empty strings,
empty dictionaries and empty lists are falsy. -/
def pyTruthy : PyVal → Bool
  | .str s => !s.isEmpty
  | .dict es => !es.isEmpty
  | .pylist l => !l.isEmpty

/-- `isinstance(v, dict)`. -/
def isDict : PyVal → Bool
  | .dict _ => true
  | _ => false

/-- The target-path walk of `save_notepad_file` (lines 457-465): each step
does `target_node = target_node.get(key)` and falls back (`none`) when the
result is falsy (`not target_node`) or not a dictionary. -/
def saveWalk : PyVal → List String → Option PyVal
  | v, [] => some v
  | v, k :: rest =>
    match v with
    | .dict es =>
      match dget es k with
      | some child => if pyTruthy child && isDict child then saveWalk child rest else none
      | none => none
    | _ => none

/-- Apply `f` to the folder the path resolves to, writing the change back
along the path.  This is the functional rendering of a Python in-place
mutation of the node returned by walking `path` from the root; when the
path does not resolve to a dictionary the mutation hits a detached node
and the tree is unchanged. -/
def mapFolderAt (fs : FS) : List String → (List (String × PyVal) → List (String × PyVal)) → FS
  | [], f => f fs
  | k :: rest, f =>
    match dget fs k with
    | some (.dict cs) => dset fs k (.dict (mapFolderAt cs rest f))
    | _ => fs

/-- `current_node[name] = v` after resolving `path`. -/
def setChildAt (fs : FS) (path : List String) (name : String) (v : PyVal) : FS :=
  mapFolderAt fs path (fun es => dset es name v)

/-- `del current_node[name]` after resolving `path`. -/
def delChildAt (fs : FS) (path : List String) (name : String) : FS :=
  mapFolderAt fs path (fun es => ddel es name)

/-- Python's `needle in hay` on strings: substring containment. -/
def substrIn (needle hay : String) : Bool :=
  decide (needle.data <:+: hay.data)

/-- The character class stripped by Python's `str.strip()` (restricted to
the ASCII whitespace characters, the only ones this development needs;
Python additionally strips other Unicode whitespace). -/
def isPySpace (c : Char) : Bool :=
  c = ' ' || c = '\t' || c = '\n' || c = '\r' || c = Char.ofNat 11 || c = Char.ofNat 12

/-- `str.strip()` on the character list: drop whitespace from both ends. -/
def pyStripList (l : List Char) : List Char :=
  ((l.dropWhile isPySpace).reverse.dropWhile isPySpace).reverse

/-- `content.strip()` as performed by `save_notepad_file` on the text
taken from the editor widget. -/
def pyStrip (s : String) : String :=
  ⟨pyStripList s.data⟩

/-- `True` when the string begins or ends with a stripped-whitespace
character. -/
def touchesWS (s : String) : Bool :=
  (s.data.head?.elim false isPySpace) || (s.data.getLast?.elim false isPySpace)

/-- The record dictionary `delete_selected_item` stores in the recycle
bin: `{'original_name': item_name, 'original_path': current_path[:],
'content': deep copy of the entry}`.  A deep copy of an immutable value is
the value itself. -/
def mkRecord (oname : String) (opath : List String) (payload : PyVal) : PyVal :=
  .dict [("original_name", .str oname), ("original_path", .pylist opath),
         ("content", payload)]

/-- Result of `create_file_dialog` / `create_folder_dialog`.  Every
constructor that carries a tree carries `self.file_system` after the call;
`crash` marks a Python exception escaping the handler. -/
inductive CreateResult where
  | created (fs : FS)
  | nameExists (fs : FS)
  | storageFull (fs : FS)
  | cancelled (fs : FS)
  | crash

/-- `create_file_dialog` with the name the user typed.  The handler first
requires `calculate_directory_size() < storage_limit_bytes` (a strict
comparison, evaluated *before* knowing the new entry is empty), then
checks `new_file_name in current_node`, then assigns
`current_node[new_file_name] = ""`.  An empty name is falsy and the
dialog body is skipped.  When `current_path` does not resolve,
`get_current_node` returned a detached `{}` and the assignment is lost
(the handler still reports success); when it resolves to a string,
membership is a substring test and the assignment raises `TypeError`. -/
def create_file_dialog (fs : FS) (path : List String) (name : String)
    (limit : Nat) : CreateResult :=
  if name = "" then .cancelled fs
  else
    match calculate_directory_size fs with
    | none => .crash
    | some used =>
      if used < limit then
        match resolve (.dict fs) path with
        | some (.dict es) =>
          if hasKey es name then .nameExists fs
          else .created (setChildAt fs path name (.str ""))
        | some (.str s) => if substrIn name s then .nameExists fs else .crash
        | some (.pylist l) => if l.contains name then .nameExists fs else .crash
        | none => .created fs
      else .storageFull fs

/-- `create_folder_dialog`: same conflict handling as file creation but
with *no* storage-limit check; assigns `current_node[new_folder_name] = {}`. -/
def create_folder_dialog (fs : FS) (path : List String) (name : String) :
    CreateResult :=
  if name = "" then .cancelled fs
  else
    match resolve (.dict fs) path with
    | some (.dict es) =>
      if hasKey es name then .nameExists fs
      else .created (setChildAt fs path name (.dict []))
    | some (.str s) => if substrIn name s then .nameExists fs else .crash
    | some (.pylist l) => if l.contains name then .nameExists fs else .crash
    | none => .created fs

/-- Result of `rename_selected_item`. -/
inductive RenameResult where
  | renamed (fs : FS)
  | nameExists (fs : FS)
  | noop (fs : FS)
  | crash

/-- `rename_selected_item` with the selected old name and the typed new
name.  The body runs only when the new name is non-empty and differs from
the old one; a conflicting new name aborts with a warning, otherwise
`current_node[new_name] = current_node.pop(old_name)`.  `pop` on a
missing key (in particular on the detached `{}` of an unresolved path)
raises `KeyError`. -/
def rename_selected_item (fs : FS) (path : List String)
    (oldName newName : String) : RenameResult :=
  if newName ≠ "" ∧ newName ≠ oldName then
    match resolve (.dict fs) path with
    | some (.dict es) =>
      if hasKey es newName then .nameExists fs
      else
        match dget es oldName with
        | some v =>
          .renamed (mapFolderAt fs path (fun d => dset (ddel d oldName) newName v))
        | none => .crash
    | some (.str s) => if substrIn newName s then .nameExists fs else .crash
    | some (.pylist l) => if l.contains newName then .nameExists fs else .crash
    | none => .crash
  else .noop fs

/-- Result of `delete_selected_item`: on success the generated recycle-bin
key (the token) is returned alongside the new tree. -/
inductive DelResult where
  | ok (fs : FS) (token : String)
  | noop (fs : FS)
  | crash

/-- `delete_selected_item` for a confirmed deletion of `name` at `path`,
with `ts` the formatted `"%Y%m%d%H%M%S"` clock value: deep-copy the entry,
delete it in place, and store the record under
`item_name + "_DELETED_" + timestamp` in `self.file_system['.recyclebin']`
(a plain dictionary assignment — no check that the key is fresh).
Accessing a missing or non-dictionary `'.recyclebin'` raises.  When the
selected name is absent nothing happens; when the resolved node is a
string, `current_node[item_name]` raises `TypeError` if the membership
(substring) test passed. -/
def delete_selected_item (fs : FS) (path : List String) (name ts : String) :
    DelResult :=
  match resolve (.dict fs) path with
  | some (.dict es) =>
    match dget es name with
    | some item =>
      let fs1 := delChildAt fs path name
      let tok := name ++ "_DELETED_" ++ ts
      match dget fs1 binName with
      | some (.dict bin) =>
        .ok (dset fs1 binName (.dict (dset bin tok (mkRecord name path item)))) tok
      | some _ => .crash
      | none => .crash
    | none => .noop fs
  | some (.str s) => if substrIn name s then .crash else .noop fs
  | some (.pylist l) => if l.contains name then .crash else .noop fs
  | none => .noop fs

/-- Result of `restore_item`: on success the tree, the final name used,
and the path the item was restored to (the cleared list `[]` when the
recorded path no longer resolved). -/
inductive RestoreResult where
  | restored (fs : FS) (finalName : String) (toPath : List String)
  | cancelled (fs : FS)
  | noop (fs : FS)
  | crash

/-- `restore_item` for the bin entry keyed `token`, with `acceptRename`
the user's answer to the name-conflict dialog.  Missing token (or an
empty, hence falsy, record): silent return.  The recorded path is walked
in the current tree, falling back to the root (and clearing the local
path list) when a segment is missing or not a folder.  On a collision the
user may restore under `original_name + "_restored"` — assigned with no
second collision check, so an entry of that name is overwritten — or
abort.  Records not of the shape written by `delete_selected_item` make
the field accesses raise. -/
def restore_item (fs : FS) (token : String) (acceptRename : Bool) :
    RestoreResult :=
  match dget fs binName with
  | some (.dict bin) =>
    match dget bin token with
    | some (.dict rec) =>
      if rec.isEmpty then .noop fs
      else
        match dget rec "original_path", dget rec "original_name",
              dget rec "content" with
        | some (.pylist opath), some (.str oname), some payload =>
          let tp := match restoreWalk (.dict fs) opath with
            | some (.dict es) => some (opath, es)
            | _ => none
          let tgt := tp.getD ([], fs)
          let proceed := if hasKey tgt.2 oname then acceptRename else true
          let finalName := if hasKey tgt.2 oname then oname ++ "_restored" else oname
          if proceed then
            let fs1 := mapFolderAt fs tgt.1 (fun d => dset d finalName payload)
            match dget fs1 binName with
            | some (.dict bin1) =>
              .restored (dset fs1 binName (.dict (ddel bin1 token))) finalName tgt.1
            | _ => .crash
          else .cancelled fs
        | _, _, _ => .crash
    | some _ => .crash
    | none => .noop fs
  | _ => .crash

/-- Result of `save_notepad_file`: on success the tree and the effective
parent path of the saved file (`window.file_path`, reset to `[]` when the
recorded path was invalid). -/
inductive SaveResult where
  | saved (fs : FS) (effPath : List String)
  | storageFull (fs : FS)
  | crash

/-- `save_notepad_file` for a plain save (not save-as) of an open file:
the widget text is stripped, the window's recorded path is walked with
fallback to the root, the storage check compares
`calculate_directory_size() + (new size - old size)` against the limit
*before* committing, and on success `target_node[filename] = content`.
Computing the old size of an existing non-string entry, or computing the
directory size with a non-empty recycle bin, raises. -/
def save_notepad_file (fs : FS) (fp : List String) (filename raw : String)
    (limit : Nat) : SaveResult :=
  let content := pyStrip raw
  let contentSize := content.utf8ByteSize
  let tgt : List String × List (String × PyVal) :=
    match saveWalk (.dict fs) fp with
    | some (.dict es) => (fp, es)
    | _ => ([], fs)
  match (match dget tgt.2 filename with
         | none => some 0
         | some (.str s) => some s.utf8ByteSize
         | some _ => none) with
  | none => .crash
  | some oldSize =>
    match calculate_directory_size fs with
    | none => .crash
    | some used =>
      if (used : Int) + ((contentSize : Int) - (oldSize : Int)) > (limit : Int)
      then .storageFull fs
      else .saved (mapFolderAt fs tgt.1 (fun d => dset d filename (.str content))) tgt.1

/-- Opening a file from the explorer (`on_double_click_file_explorer`):
the displayed content is `current_node.get(item_name, "File not found.")`.
`none` models the `AttributeError` of `.get` on a non-dictionary node. -/
def read_file_view (fs : FS) (path : List String) (name : String) :
    Option PyVal :=
  match get_current_node (.dict fs) path with
  | .dict es => some ((dget es name).getD (.str "File not found."))
  | _ => none

/-- Number of entries currently in the recycle bin
(`len(self.file_system['.recyclebin'])`). -/
def binLen (fs : FS) : Nat :=
  match dget fs binName with
  | some (.dict b) => b.length
  | _ => 0

lemma dget_dset_self (es : List (String × PyVal)) (k : String) (v : PyVal) :
    dget (dset es k v) k = some v := by
  induction es with
  | nil => simp [dset, dget]
  | cons p rest ih =>
    obtain ⟨k', v'⟩ := p
    by_cases h : k' = k
    · simp [dset, dget, h]
    · simp [dset, dget, h, ih]

lemma dget_dset_ne (es : List (String × PyVal)) (k k' : String) (v : PyVal)
    (h : k' ≠ k) : dget (dset es k v) k' = dget es k' := by
  induction es with
  | nil => simp [dset, dget, Ne.symm h]
  | cons p rest ih =>
    obtain ⟨a, b⟩ := p
    by_cases ha' : a = k'
    · subst ha'
      simp [dset, dget, h]
    · by_cases ha : a = k
      · subst ha
        simp [dset, dget, ha']
      · simp [dset, dget, ha, ha', ih]

lemma dget_ddel_self (es : List (String × PyVal)) (k : String) :
    dget (ddel es k) k = none := by
  induction es with
  | nil => simp [ddel, dget]
  | cons p rest ih =>
    obtain ⟨a, b⟩ := p
    by_cases ha : a = k
    · simpa [ddel, List.filter_cons, ha] using ih
    · simpa [ddel, List.filter_cons, ha, dget] using ih

lemma dget_ddel_ne (es : List (String × PyVal)) (k k' : String)
    (h : k' ≠ k) : dget (ddel es k) k' = dget es k' := by
  induction es with
  | nil => simp [ddel, dget]
  | cons p rest ih =>
    obtain ⟨a, b⟩ := p
    by_cases ha : a = k
    · subst ha
      simpa [ddel, List.filter_cons, dget, Ne.symm h] using ih
    · by_cases ha' : a = k'
      · subst ha'
        simp [ddel, List.filter_cons, ha, dget]
      · simpa [ddel, List.filter_cons, ha, ha', dget] using ih

lemma length_dset (es : List (String × PyVal)) (k : String) (v : PyVal) :
    (dset es k v).length = if hasKey es k then es.length else es.length + 1 := by
  induction es with
  | nil => simp [dset, hasKey, dget]
  | cons p rest ih =>
    obtain ⟨a, b⟩ := p
    by_cases ha : a = k
    · simp [dset, hasKey, dget, ha]
    · have hkey : hasKey ((a, b) :: rest) k = hasKey rest k := by
        simp [hasKey, dget, ha]
      simp only [dset, if_neg ha, List.length_cons, ih, hkey]
      split <;> simp

lemma hasKey_of_dget {es : List (String × PyVal)} {k : String} {v : PyVal}
    (h : dget es k = some v) : hasKey es k = true := by
  simp [hasKey, h]

lemma hasKey_false_iff {es : List (String × PyVal)} {k : String} :
    hasKey es k = false ↔ dget es k = none := by
  cases hd : dget es k <;> simp [hasKey, hd]

lemma resolve_mapFolderAt (path : List String) :
    ∀ (fs : FS) (es : List (String × PyVal))
      (f : List (String × PyVal) → List (String × PyVal)),
      resolve (.dict fs) path = some (.dict es) →
      resolve (.dict (mapFolderAt fs path f)) path = some (.dict (f es)) := by
  induction path with
  | nil =>
    intro fs es f h
    simp [resolve] at h
    subst h
    simp [mapFolderAt, resolve]
  | cons k rest ih =>
    intro fs es f h
    simp only [resolve] at h
    cases hc : dget fs k with
    | none => rw [hc] at h; simp at h
    | some c =>
      rw [hc] at h
      cases c with
      | str s => cases rest <;> simp [resolve] at h
      | pylist l => cases rest <;> simp [resolve] at h
      | dict cs =>
        simp only [mapFolderAt, hc]
        simp only [resolve, dget_dset_self]
        exact ih cs es f h

lemma restoreWalk_of_resolve (path : List String) :
    ∀ (v : PyVal) (es : List (String × PyVal)),
      resolve v path = some (.dict es) → restoreWalk v path = some (.dict es) := by
  induction path with
  | nil =>
    intro v es h
    simp [resolve] at h
    simp [restoreWalk, h]
  | cons k rest ih =>
    intro v es h
    cases v with
    | str s => simp [resolve] at h
    | pylist l => simp [resolve] at h
    | dict d =>
      simp only [resolve] at h
      cases hc : dget d k with
      | none => rw [hc] at h; simp at h
      | some c =>
        rw [hc] at h
        cases c with
        | str s => cases rest <;> simp [resolve] at h
        | pylist l => cases rest <;> simp [resolve] at h
        | dict cs =>
          simp only [restoreWalk, hc]
          exact ih _ es h

lemma resolve_of_restoreWalk (path : List String) :
    ∀ (v w : PyVal), restoreWalk v path = some w → resolve v path = some w := by
  induction path with
  | nil =>
    intro v w h
    simp [restoreWalk] at h
    simp [resolve, h]
  | cons k rest ih =>
    intro v w h
    cases v with
    | str s => simp [restoreWalk] at h
    | pylist l => simp [restoreWalk] at h
    | dict d =>
      simp only [restoreWalk] at h
      cases hc : dget d k with
      | none => rw [hc] at h; simp at h
      | some c =>
        rw [hc] at h
        cases c with
        | str s => simp at h
        | pylist l => simp at h
        | dict cs => simp only [resolve, hc]; exact ih _ _ h

lemma resolve_of_saveWalk (path : List String) :
    ∀ (v w : PyVal), saveWalk v path = some w → resolve v path = some w := by
  induction path with
  | nil =>
    intro v w h
    simp [saveWalk] at h
    simp [resolve, h]
  | cons k rest ih =>
    intro v w h
    cases v with
    | str s => simp [saveWalk] at h
    | pylist l => simp [saveWalk] at h
    | dict d =>
      simp only [saveWalk] at h
      cases hc : dget d k with
      | none => rw [hc] at h; simp at h
      | some c =>
        simp only [hc] at h
        by_cases hok : (pyTruthy c && isDict c) = true
        · rw [if_pos hok] at h
          simp only [resolve, hc]
          exact ih _ _ h
        · rw [if_neg hok] at h; simp at h

lemma get_current_node_eq_resolve (path : List String) :
    ∀ v : PyVal, get_current_node v path = (resolve v path).getD (.dict []) := by
  induction path with
  | nil => intro v; simp [get_current_node, resolve]
  | cons k rest ih =>
    intro v
    cases v with
    | str s => simp [get_current_node, resolve]
    | pylist l => simp [get_current_node, resolve]
    | dict d =>
      cases hc : dget d k with
      | none => simp [get_current_node, resolve, hc]
      | some c => simp [get_current_node, resolve, hc, ih]

lemma pyStripList_length_lt (l : List Char)
    (h : (l.head?.elim false isPySpace) || (l.getLast?.elim false isPySpace) = true) :
    (pyStripList l).length < l.length := by
  have h' : (l.head?.elim false isPySpace = true) ∨
      (l.getLast?.elim false isPySpace = true) := by simpa using h
  rcases h' with hh | hl
  · match l, hh with
    | c :: t, hh =>
      have hc : isPySpace c = true := by simpa using hh
      calc (pyStripList (c :: t)).length
          ≤ ((c :: t).dropWhile isPySpace).length := by
            simpa [pyStripList] using
              (List.dropWhile_suffix (l := ((c :: t).dropWhile isPySpace).reverse)
                isPySpace).length_le
        _ = (t.dropWhile isPySpace).length := by rw [List.dropWhile_cons, if_pos hc]
        _ ≤ t.length := (List.dropWhile_suffix _).length_le
        _ < (c :: t).length := by simp
  · have hne : l ≠ [] := by
      cases l with
      | nil => simp at hl
      | cons a t => simp
    obtain ⟨c, hlast⟩ : ∃ c, l.getLast? = some c ∧ isPySpace c = true := by
      cases hg : l.getLast? with
      | none => rw [hg] at hl; simp at hl
      | some c => exact ⟨c, rfl, by rw [hg] at hl; simpa using hl⟩
    obtain ⟨hlast, hc⟩ := hlast
    cases h1 : l.dropWhile isPySpace with
    | nil =>
      have : (pyStripList l).length = 0 := by simp [pyStripList, h1]
      rw [this]
      exact List.length_pos.mpr hne
    | cons d t' =>
      have hsuf : l.dropWhile isPySpace <:+ l := List.dropWhile_suffix _
      obtain ⟨pre, hpre⟩ := hsuf
      have hne2 : l.dropWhile isPySpace ≠ [] := by rw [h1]; simp
      have hlast1 : (l.dropWhile isPySpace).getLast? = some c := by
        rw [← hlast]
        conv_rhs => rw [← hpre]
        exact (List.getLast?_append_of_ne_nil pre hne2).symm
      have hrev : (l.dropWhile isPySpace).reverse.head? = some c := by
        rw [List.head?_reverse]; exact hlast1
      obtain ⟨r, hr⟩ : ∃ r, (l.dropWhile isPySpace).reverse = c :: r := by
        cases h2 : (l.dropWhile isPySpace).reverse with
        | nil => rw [h2] at hrev; simp at hrev
        | cons e r =>
          rw [h2] at hrev
          simp at hrev
          exact ⟨r, by rw [hrev]⟩
      have hlen1 : (pyStripList l).length
          < (l.dropWhile isPySpace).length := by
        calc (pyStripList l).length
            = (((l.dropWhile isPySpace).reverse.dropWhile isPySpace)).length := by
              simp [pyStripList]
          _ = ((c :: r).dropWhile isPySpace).length := by rw [hr]
          _ = (r.dropWhile isPySpace).length := by rw [List.dropWhile_cons, if_pos hc]
          _ ≤ r.length := (List.dropWhile_suffix _).length_le
          _ < (c :: r).length := by simp
          _ = (l.dropWhile isPySpace).length := by rw [← hr]; simp
      exact hlen1.trans_le (List.dropWhile_suffix _).length_le

lemma pyStrip_ne_of_touchesWS {s : String} (h : touchesWS s = true) :
    pyStrip s ≠ s := by
  intro heq
  have hdata : pyStripList s.data = s.data := congrArg String.data heq
  have hlen : (pyStripList s.data).length < s.data.length :=
    pyStripList_length_lt s.data (by simpa [touchesWS] using h)
  rw [hdata] at hlen
  exact lt_irrefl _ hlen

lemma restored_name_ne_binName (oname : String) :
    oname ++ "_restored" ≠ binName := by
  intro h
  have hd : oname.data ++ "_restored".data = binName.data := by
    have := congrArg String.data h
    simpa [String.data_append] using this
  exact absurd ⟨oname.data, hd⟩ (by decide : ¬("_restored".data <:+ binName.data))

lemma resolve_cons_elim {fs : List (String × PyVal)} {k : String}
    {rest : List String} {es : List (String × PyVal)}
    (h : resolve (.dict fs) (k :: rest) = some (.dict es)) :
    ∃ cs, dget fs k = some (.dict cs) ∧ resolve (.dict cs) rest = some (.dict es) := by
  simp only [resolve] at h
  cases hc : dget fs k with
  | none => rw [hc] at h; simp at h
  | some c =>
    rw [hc] at h
    cases c with
    | str s => cases rest <;> simp [resolve] at h
    | pylist l => cases rest <;> simp [resolve] at h
    | dict cs => exact ⟨cs, rfl, h⟩

lemma resolve_cons_dset_ne (fs : FS) (b k : String) (v : PyVal)
    (rest : List String) (h : k ≠ b) :
    resolve (.dict (dset fs b v)) (k :: rest) = resolve (.dict fs) (k :: rest) := by
  simp only [resolve, dget_dset_ne fs b k v h]

/-- Claim C1 (code_bug): `totalSize` is claimed to be a total function of
the tree-plus-bin state, summing all file byte lengths including the
recycle-bin contents.  In the code, a recycle-bin record stores its
`original_path` as a Python list, on which `get_size` calls
`.encode('utf-8')` — an `AttributeError`.  Concretely: deleting `a.txt`
from the seeded two-entry root succeeds and moves the record into the
bin, after which `calculate_directory_size` is undefined (`none`),
although it was `some 2` before the deletion. -/
theorem C1_total_size_crashes_with_nonempty_bin :
    delete_selected_item [("a.txt", PyVal.str "hi"), (binName, PyVal.dict [])]
        [] "a.txt" "20240101120000"
      = .ok [(binName, PyVal.dict [("a.txt_DELETED_20240101120000",
            mkRecord "a.txt" [] (PyVal.str "hi"))])] "a.txt_DELETED_20240101120000"
    ∧ calculate_directory_size [("a.txt", PyVal.str "hi"), (binName, PyVal.dict [])]
        = some 2
    ∧ calculate_directory_size [(binName, PyVal.dict [("a.txt_DELETED_20240101120000",
          mkRecord "a.txt" [] (PyVal.str "hi"))])] = none :=
  ⟨rfl, rfl, rfl⟩

/-- Claim C2 (code_bug): the quota check of `save_notepad_file` behaves as
claimed only while the recycle bin is empty: with `a.txt` = `"ab"` and an
empty bin, saving 3 more bytes against limit 4 is rejected leaving the
tree unchanged, and against limit 5 (exactly full) it succeeds.  But on
the same tree with one recycled record in the bin, the same over-quota
save *crashes* (`calculate_directory_size` raises on the record's
`original_path` list) instead of returning StorageFull — and so does a
save that would comfortably fit (limit 100). -/
theorem C2_save_quota_check :
    save_notepad_file [("a.txt", PyVal.str "ab"), (binName, PyVal.dict [])]
        [] "b.txt" "xyz" 4
      = .storageFull [("a.txt", PyVal.str "ab"), (binName, PyVal.dict [])]
    ∧ save_notepad_file [("a.txt", PyVal.str "ab"), (binName, PyVal.dict [])]
        [] "b.txt" "xyz" 5
      = .saved [("a.txt", PyVal.str "ab"), (binName, PyVal.dict []),
                ("b.txt", PyVal.str "xyz")] []
    ∧ save_notepad_file [("a.txt", PyVal.str "ab"),
          (binName, PyVal.dict [("t", mkRecord "x" [] (PyVal.str "q"))])]
        [] "b.txt" "xyz" 4 = .crash
    ∧ save_notepad_file [("a.txt", PyVal.str "ab"),
          (binName, PyVal.dict [("t", mkRecord "x" [] (PyVal.str "q"))])]
        [] "b.txt" "xyz" 100 = .crash :=
  ⟨rfl, rfl, rfl, rfl⟩

/-- Claim C4, counterexample: the claim wants the not-found signal of path
resolution to be distinguishable from every entry, including an empty
folder.  `get_current_node` returns the empty dictionary `{}` as its
failure value, so resolving the genuinely existing empty folder `Images`
and resolving the absent name `Missing` produce identical results. -/
theorem C4_counterexample :
    resolve (.dict [("Images", PyVal.dict [])]) ["Images"] = some (.dict [])
    ∧ resolve (.dict [("Images", PyVal.dict [])]) ["Missing"] = none
    ∧ get_current_node (.dict [("Images", PyVal.dict [])]) ["Missing"]
        = get_current_node (.dict [("Images", PyVal.dict [])]) ["Images"] :=
  ⟨rfl, rfl, rfl⟩

/-- Claim C4 (corrected): resolution is a total, side-effect-free function
of tree and path that walks segments from the root and fails when an
intermediate entry is not a folder or the next segment is absent — but
its failure value is the empty folder `{}`, not a signal distinguishable
from every entry: `get_current_node` agrees everywhere with the spec-side
`resolve` up to replacing the `NotFound` result by `{}`. -/
theorem C4_get_current_node_total_with_empty_sentinel :
    ∀ (v : PyVal) (p : List String),
      get_current_node v p = (resolve v p).getD (.dict []) :=
  fun v p => get_current_node_eq_resolve p v

/-- Claim C5, counterexample: with 2 bytes used and `limitBytes = 2`
(exactly full), creating an empty file is rejected with StorageFull —
the claim says a creation with delta 0 succeeds at exactly-full — while
creating an empty folder succeeds with no quota check at all, so the two
creations are not subject to the same check either. -/
theorem C5_counterexample :
    calculate_directory_size [("a.txt", PyVal.str "ab"), (binName, PyVal.dict [])]
      = some 2
    ∧ create_file_dialog [("a.txt", PyVal.str "ab"), (binName, PyVal.dict [])]
        [] "b.txt" 2
      = .storageFull [("a.txt", PyVal.str "ab"), (binName, PyVal.dict [])]
    ∧ create_folder_dialog [("a.txt", PyVal.str "ab"), (binName, PyVal.dict [])]
        [] "D"
      = .created [("a.txt", PyVal.str "ab"), (binName, PyVal.dict []),
                  ("D", PyVal.dict [])] :=
  ⟨rfl, rfl, rfl⟩

/-- Claim C5 (corrected): on a state whose size computation is defined,
file creation is gated by the strict pre-check
`calculate_directory_size() < limitBytes` evaluated before the insertion
(so an empty file is rejected exactly when `usedBytes ≥ limitBytes`,
despite its delta being 0), while folder creation performs no quota check
at all and always commits. -/
theorem C5_creation_quota (fs : FS) (path : List String) (name : String)
    (limit used : Nat) (es : List (String × PyVal))
    (hname : name ≠ "")
    (hres : resolve (.dict fs) path = some (.dict es))
    (hfree : hasKey es name = false)
    (hsize : calculate_directory_size fs = some used) :
    (used < limit →
      create_file_dialog fs path name limit
        = .created (setChildAt fs path name (.str "")))
    ∧ (limit ≤ used → create_file_dialog fs path name limit = .storageFull fs)
    ∧ create_folder_dialog fs path name
        = .created (setChildAt fs path name (.dict [])) := by
  refine ⟨fun hlt => ?_, fun hge => ?_, ?_⟩
  · simp [create_file_dialog, hname, hsize, hlt, hres, hfree]
  · have hnlt : ¬ used < limit := not_lt.mpr hge
    simp [create_file_dialog, hname, hsize, hnlt, hres, hfree]
  · simp [create_folder_dialog, hname, hres, hfree]

/-- Witness for C5_creation_quota at a concrete state: root
`{a.txt: "ab", .recyclebin: {}}` (2 bytes used), creating `b.txt` with
limit 5. -/
theorem C5_creation_quota_witness :
    ("b.txt" ≠ "")
    ∧ resolve (.dict [("a.txt", PyVal.str "ab"), (binName, PyVal.dict [])]) []
        = some (.dict [("a.txt", PyVal.str "ab"), (binName, PyVal.dict [])])
    ∧ hasKey [("a.txt", PyVal.str "ab"), (binName, PyVal.dict [])] "b.txt" = false
    ∧ calculate_directory_size [("a.txt", PyVal.str "ab"), (binName, PyVal.dict [])]
        = some 2
    ∧ ((2 < 5 →
        create_file_dialog [("a.txt", PyVal.str "ab"), (binName, PyVal.dict [])]
            [] "b.txt" 5
          = .created (setChildAt [("a.txt", PyVal.str "ab"),
              (binName, PyVal.dict [])] [] "b.txt" (.str "")))
      ∧ (5 ≤ 2 →
        create_file_dialog [("a.txt", PyVal.str "ab"), (binName, PyVal.dict [])]
            [] "b.txt" 5
          = .storageFull [("a.txt", PyVal.str "ab"), (binName, PyVal.dict [])])
      ∧ create_folder_dialog [("a.txt", PyVal.str "ab"), (binName, PyVal.dict [])]
            [] "b.txt"
          = .created (setChildAt [("a.txt", PyVal.str "ab"),
              (binName, PyVal.dict [])] [] "b.txt" (.dict []))) :=
  ⟨by decide, rfl, rfl, rfl,
    C5_creation_quota _ _ _ _ _ _ (by decide) rfl rfl rfl⟩

/-- Claim C6, counterexample: tokens are `name + "_DELETED_" + timestamp`
with *no* collision check.  Deleting `a` at second-resolution timestamp
`"1"` while the bin already holds the key `a_DELETED_1` overwrites the
existing record: the bin had 1 entry before the delete and still has 1
entry after it, refuting "the number of bin entries increases by exactly
one on every delete". -/
theorem C6_counterexample :
    delete_selected_item [("a", PyVal.str "x"),
        (binName, PyVal.dict [("a_DELETED_1", mkRecord "a" [] (PyVal.str "old"))])]
        [] "a" "1"
      = .ok [(binName, PyVal.dict [("a_DELETED_1", mkRecord "a" [] (PyVal.str "x"))])]
          "a_DELETED_1"
    ∧ binLen [("a", PyVal.str "x"),
        (binName, PyVal.dict [("a_DELETED_1", mkRecord "a" [] (PyVal.str "old"))])] = 1
    ∧ binLen [(binName, PyVal.dict [("a_DELETED_1", mkRecord "a" [] (PyVal.str "x"))])]
        = 1 :=
  ⟨rfl, rfl, rfl⟩

/-- Claim C6 (corrected): the token is exactly
`name + "_DELETED_" + timestamp` and the record is stored by plain
dictionary assignment: when that key is already present in the bin the
existing record is overwritten and the bin size is unchanged; only when
it is absent does the bin grow by one. -/
theorem C6_token_generation (fs : FS) (path : List String) (name ts : String)
    (es bin : List (String × PyVal)) (item : PyVal)
    (hres : resolve (.dict fs) path = some (.dict es))
    (hitem : dget es name = some item)
    (hbin : dget (delChildAt fs path name) binName = some (.dict bin)) :
    delete_selected_item fs path name ts
      = .ok (dset (delChildAt fs path name) binName
          (.dict (dset bin (name ++ "_DELETED_" ++ ts) (mkRecord name path item))))
          (name ++ "_DELETED_" ++ ts)
    ∧ dget (dset bin (name ++ "_DELETED_" ++ ts) (mkRecord name path item))
        (name ++ "_DELETED_" ++ ts) = some (mkRecord name path item)
    ∧ (dset bin (name ++ "_DELETED_" ++ ts) (mkRecord name path item)).length
        = if hasKey bin (name ++ "_DELETED_" ++ ts)
          then bin.length else bin.length + 1 := by
  refine ⟨?_, dget_dset_self _ _ _, length_dset _ _ _⟩
  simp [delete_selected_item, hres, hitem, hbin]

/-- Witness for C6_token_generation: deleting `a` from
`{a: "x", .recyclebin: {}}` at timestamp `"2"`. -/
theorem C6_token_generation_witness :
    resolve (.dict [("a", PyVal.str "x"), (binName, PyVal.dict [])]) []
      = some (.dict [("a", PyVal.str "x"), (binName, PyVal.dict [])])
    ∧ dget [("a", PyVal.str "x"), (binName, PyVal.dict [])] "a"
        = some (PyVal.str "x")
    ∧ dget (delChildAt [("a", PyVal.str "x"), (binName, PyVal.dict [])] [] "a")
        binName = some (.dict [])
    ∧ (delete_selected_item [("a", PyVal.str "x"), (binName, PyVal.dict [])]
          [] "a" "2"
        = .ok (dset (delChildAt [("a", PyVal.str "x"), (binName, PyVal.dict [])]
              [] "a") binName
            (.dict (dset [] ("a" ++ "_DELETED_" ++ "2")
              (mkRecord "a" [] (PyVal.str "x")))))
            ("a" ++ "_DELETED_" ++ "2")
      ∧ dget (dset [] ("a" ++ "_DELETED_" ++ "2") (mkRecord "a" [] (PyVal.str "x")))
          ("a" ++ "_DELETED_" ++ "2") = some (mkRecord "a" [] (PyVal.str "x"))
      ∧ (dset [] ("a" ++ "_DELETED_" ++ "2")
            (mkRecord "a" [] (PyVal.str "x"))).length
          = if hasKey [] ("a" ++ "_DELETED_" ++ "2") then ([] : FS).length
            else ([] : FS).length + 1) :=
  ⟨rfl, rfl, rfl, C6_token_generation _ _ _ _ _ _ _ rfl rfl rfl⟩

/-- Claim C7, counterexample: with the name `X` already occupied and the
storage full (`used = 0 = limit`), `create_file_dialog` fails with
StorageFull, not NameConflict: the storage guard runs before the
conflict check, so an occupied-name creation does not always produce a
name-conflict failure. -/
theorem C7_counterexample :
    hasKey [("X", PyVal.str ""), (binName, PyVal.dict [])] "X" = true
    ∧ create_file_dialog [("X", PyVal.str ""), (binName, PyVal.dict [])] [] "X" 0
      = .storageFull [("X", PyVal.str ""), (binName, PyVal.dict [])] :=
  ⟨rfl, rfl⟩

/-- Claim C7 (corrected): for an occupied target name, folder creation
and rename (to a different name) fail with a name-conflict warning and
leave the tree unchanged, unconditionally — in particular on full or
size-crashing states, since neither handler consults the quota; file
creation does so only when the size computation is defined and the
storage is not full, because its quota guard runs first. -/
theorem C7_name_conflicts (fs : FS) (path : List String)
    (name oldName : String) (limit : Nat) (es : List (String × PyVal))
    (hres : resolve (.dict fs) path = some (.dict es))
    (hocc : hasKey es name = true)
    (hname : name ≠ "")
    (hold : oldName ≠ name) :
    create_folder_dialog fs path name = .nameExists fs
    ∧ rename_selected_item fs path oldName name = .nameExists fs
    ∧ (∀ used, calculate_directory_size fs = some used → used < limit →
        create_file_dialog fs path name limit = .nameExists fs) := by
  refine ⟨?_, ?_, ?_⟩
  · simp [create_folder_dialog, hname, hres, hocc]
  · rw [rename_selected_item, if_pos ⟨hname, Ne.symm hold⟩]
    simp [hres, hocc]
  · intro used hsize hlt
    simp [create_file_dialog, hname, hsize, hlt, hres, hocc]

lemma roundtrip_nil (fs : FS) (name ts : String)
    (bin0 : List (String × PyVal)) (item : PyVal) (d : Bool)
    (hitem : dget fs name = some item)
    (hbin : dget fs binName = some (.dict bin0))
    (hn : name ≠ binName) :
    ∃ fs' fs'' es'' bin'',
      delete_selected_item fs [] name ts = .ok fs' (name ++ "_DELETED_" ++ ts)
      ∧ restore_item fs' (name ++ "_DELETED_" ++ ts) d = .restored fs'' name []
      ∧ resolve (.dict fs'') [] = some (.dict es'')
      ∧ dget es'' name = some item
      ∧ dget fs'' binName = some (.dict bin'')
      ∧ dget bin'' (name ++ "_DELETED_" ++ ts) = none := by
  have hbin1 : dget (ddel fs name) binName = some (.dict bin0) := by
    rw [dget_ddel_ne fs name binName (Ne.symm hn)]
    exact hbin
  refine ⟨dset (ddel fs name) binName
      (.dict (dset bin0 (name ++ "_DELETED_" ++ ts) (mkRecord name [] item))),
    dset (dset (dset (ddel fs name) binName
        (.dict (dset bin0 (name ++ "_DELETED_" ++ ts) (mkRecord name [] item))))
        name item) binName
      (.dict (ddel (dset bin0 (name ++ "_DELETED_" ++ ts) (mkRecord name [] item))
        (name ++ "_DELETED_" ++ ts))),
    dset (dset (dset (ddel fs name) binName
        (.dict (dset bin0 (name ++ "_DELETED_" ++ ts) (mkRecord name [] item))))
        name item) binName
      (.dict (ddel (dset bin0 (name ++ "_DELETED_" ++ ts) (mkRecord name [] item))
        (name ++ "_DELETED_" ++ ts))),
    ddel (dset bin0 (name ++ "_DELETED_" ++ ts) (mkRecord name [] item))
      (name ++ "_DELETED_" ++ ts),
    ?_, ?_, ?_, ?_, ?_, ?_⟩
  · simp [delete_selected_item, resolve, hitem, delChildAt, mapFolderAt, hbin1]
  · have hK : hasKey (dset (ddel fs name) binName
        (.dict (dset bin0 (name ++ "_DELETED_" ++ ts) (mkRecord name [] item))))
        name = false := by
      simp [hasKey, dget_dset_ne _ _ _ _ hn, dget_ddel_self]
    have hbin2 : dget (dset (dset (ddel fs name) binName
        (.dict (dset bin0 (name ++ "_DELETED_" ++ ts) (mkRecord name [] item))))
        name item) binName
        = some (.dict (dset bin0 (name ++ "_DELETED_" ++ ts)
            (mkRecord name [] item))) := by
      rw [dget_dset_ne _ _ _ _ (Ne.symm hn)]
      exact dget_dset_self _ _ _
    simp only [mkRecord] at hK hbin2
    simp [restore_item, dget_dset_self, mkRecord, dget, restoreWalk, mapFolderAt,
      hK, hbin2]
  · exact rfl
  · rw [dget_dset_ne _ _ _ _ hn]
    exact dget_dset_self _ _ _
  · exact dget_dset_self _ _ _
  · exact dget_ddel_self _ _

lemma roundtrip_cons (fs : FS) (k : String) (rest : List String)
    (name ts : String) (es bin0 cs : List (String × PyVal)) (item : PyVal)
    (d : Bool)
    (hck : dget fs k = some (.dict cs))
    (hres : resolve (.dict fs) (k :: rest) = some (.dict es))
    (hitem : dget es name = some item)
    (hbin : dget fs binName = some (.dict bin0))
    (hk : k ≠ binName) :
    ∃ fs' fs'' es'' bin'',
      delete_selected_item fs (k :: rest) name ts
        = .ok fs' (name ++ "_DELETED_" ++ ts)
      ∧ restore_item fs' (name ++ "_DELETED_" ++ ts) d
          = .restored fs'' name (k :: rest)
      ∧ resolve (.dict fs'') (k :: rest) = some (.dict es'')
      ∧ dget es'' name = some item
      ∧ dget fs'' binName = some (.dict bin'')
      ∧ dget bin'' (name ++ "_DELETED_" ++ ts) = none := by
  have hfs1 : delChildAt fs (k :: rest) name
      = dset fs k (.dict (mapFolderAt cs rest (fun d2 => ddel d2 name))) := by
    simp [delChildAt, mapFolderAt, hck]
  have hbin1 : dget (delChildAt fs (k :: rest) name) binName
      = some (.dict bin0) := by
    rw [hfs1, dget_dset_ne _ _ _ _ (Ne.symm hk)]
    exact hbin
  have hresolve1 : resolve (.dict (delChildAt fs (k :: rest) name)) (k :: rest)
      = some (.dict (ddel es name)) := by
    simpa [delChildAt] using
      resolve_mapFolderAt (k :: rest) fs es (fun d2 => ddel d2 name) hres
  have hresolve2 : resolve (.dict (dset (delChildAt fs (k :: rest) name) binName
      (.dict (dset bin0 (name ++ "_DELETED_" ++ ts)
        (mkRecord name (k :: rest) item))))) (k :: rest)
      = some (.dict (ddel es name)) := by
    rw [resolve_cons_dset_ne _ _ _ _ _ hk]
    exact hresolve1
  have hwalk : restoreWalk (.dict (dset (delChildAt fs (k :: rest) name) binName
      (.dict (dset bin0 (name ++ "_DELETED_" ++ ts)
        (mkRecord name (k :: rest) item))))) (k :: rest)
      = some (.dict (ddel es name)) :=
    restoreWalk_of_resolve _ _ _ hresolve2
  have hK : hasKey (ddel es name) name = false := by
    simp [hasKey, dget_ddel_self]
  have hgetk : dget (dset (delChildAt fs (k :: rest) name) binName
      (.dict (dset bin0 (name ++ "_DELETED_" ++ ts)
        (mkRecord name (k :: rest) item)))) k
      = some (.dict (mapFolderAt cs rest (fun d2 => ddel d2 name))) := by
    rw [dget_dset_ne _ _ _ _ hk, hfs1]
    exact dget_dset_self _ _ _
  have hfs1r : mapFolderAt (dset (delChildAt fs (k :: rest) name) binName
      (.dict (dset bin0 (name ++ "_DELETED_" ++ ts)
        (mkRecord name (k :: rest) item)))) (k :: rest)
      (fun d2 => dset d2 name item)
      = dset (dset (delChildAt fs (k :: rest) name) binName
          (.dict (dset bin0 (name ++ "_DELETED_" ++ ts)
            (mkRecord name (k :: rest) item)))) k
          (.dict (mapFolderAt (mapFolderAt cs rest (fun d2 => ddel d2 name)) rest
            (fun d2 => dset d2 name item))) := by
    simp [mapFolderAt, hgetk]
  have hbin2 : dget (mapFolderAt (dset (delChildAt fs (k :: rest) name) binName
      (.dict (dset bin0 (name ++ "_DELETED_" ++ ts)
        (mkRecord name (k :: rest) item)))) (k :: rest)
      (fun d2 => dset d2 name item)) binName
      = some (.dict (dset bin0 (name ++ "_DELETED_" ++ ts)
          (mkRecord name (k :: rest) item))) := by
    rw [hfs1r, dget_dset_ne _ _ _ _ (Ne.symm hk)]
    exact dget_dset_self _ _ _
  refine ⟨dset (delChildAt fs (k :: rest) name) binName
      (.dict (dset bin0 (name ++ "_DELETED_" ++ ts)
        (mkRecord name (k :: rest) item))),
    dset (mapFolderAt (dset (delChildAt fs (k :: rest) name) binName
        (.dict (dset bin0 (name ++ "_DELETED_" ++ ts)
          (mkRecord name (k :: rest) item)))) (k :: rest)
        (fun d2 => dset d2 name item)) binName
      (.dict (ddel (dset bin0 (name ++ "_DELETED_" ++ ts)
        (mkRecord name (k :: rest) item)) (name ++ "_DELETED_" ++ ts))),
    dset (ddel es name) name item,
    ddel (dset bin0 (name ++ "_DELETED_" ++ ts) (mkRecord name (k :: rest) item))
      (name ++ "_DELETED_" ++ ts),
    ?_, ?_, ?_, ?_, ?_, ?_⟩
  · simp [delete_selected_item, hres, hitem, hbin1]
  · simp only [mkRecord] at hwalk hbin2
    simp [restore_item, dget_dset_self, mkRecord, dget, hwalk, hK, hbin2]
  · rw [resolve_cons_dset_ne _ _ _ _ _ hk]
    exact resolve_mapFolderAt (k :: rest) _ _ _ hresolve2
  · exact dget_dset_self _ _ _
  · exact dget_dset_self _ _ _
  · exact dget_ddel_self _ _

/-- Claim C3, counterexample: all three stated conditions hold — the
entry `a` exists at path `[.recyclebin, a_DELETED_1]`, the path still
resolves to a folder at restore time (shown by `restoreWalk`), and no
name collision occurs — yet the round trip loses the item: the generated
token equals the second path segment, so deleting token from the bin at
the end of `restore_item` removes the folder the item was just restored
into, and the original path no longer resolves afterwards. -/
theorem C3_counterexample :
    delete_selected_item
        [(binName, PyVal.dict [("a_DELETED_1", PyVal.dict [("a", PyVal.str "hi")])])]
        [binName, "a_DELETED_1"] "a" "1"
      = .ok [(binName, PyVal.dict [("a_DELETED_1",
            mkRecord "a" [binName, "a_DELETED_1"] (PyVal.str "hi"))])] "a_DELETED_1"
    ∧ restoreWalk (.dict [(binName, PyVal.dict [("a_DELETED_1",
          mkRecord "a" [binName, "a_DELETED_1"] (PyVal.str "hi"))])])
        [binName, "a_DELETED_1"]
        = some (mkRecord "a" [binName, "a_DELETED_1"] (PyVal.str "hi"))
    ∧ restore_item [(binName, PyVal.dict [("a_DELETED_1",
          mkRecord "a" [binName, "a_DELETED_1"] (PyVal.str "hi"))])]
        "a_DELETED_1" false
      = .restored [(binName, PyVal.dict [])] "a" [binName, "a_DELETED_1"]
    ∧ resolve (.dict [(binName, PyVal.dict [])]) [binName, "a_DELETED_1"] = none :=
  ⟨rfl, rfl, rfl, rfl⟩

/-- Claim C3 (corrected): delete followed by restore of the generated
token reinserts an entry equal to the pre-delete entry (arbitrary `item`,
nested subtrees included) at the original path under the original name
and removes the token from the bin — provided additionally that the
parent path does not lead through the reserved recycle-bin entry (and,
for a root-level delete, the deleted name is not the bin itself): inside
the bin, the record assignment and the final token deletion can destroy
folders lying on the original path, as the counterexample shows. -/
theorem C3_delete_restore_roundtrip (fs : FS) (path : List String)
    (name ts : String) (es bin0 : List (String × PyVal)) (item : PyVal)
    (d : Bool)
    (hres : resolve (.dict fs) path = some (.dict es))
    (hitem : dget es name = some item)
    (hbin : dget fs binName = some (.dict bin0))
    (hpath : path.head? ≠ some binName)
    (hroot : path = [] → name ≠ binName) :
    ∃ fs' fs'' es'' bin'',
      delete_selected_item fs path name ts
        = .ok fs' (name ++ "_DELETED_" ++ ts)
      ∧ restore_item fs' (name ++ "_DELETED_" ++ ts) d
          = .restored fs'' name path
      ∧ resolve (.dict fs'') path = some (.dict es'')
      ∧ dget es'' name = some item
      ∧ dget fs'' binName = some (.dict bin'')
      ∧ dget bin'' (name ++ "_DELETED_" ++ ts) = none := by
  cases path with
  | nil =>
    have hes : fs = es := by simpa [resolve] using hres
    subst hes
    exact roundtrip_nil fs name ts bin0 item d hitem hbin (hroot rfl)
  | cons k rest =>
    obtain ⟨cs, hck, -⟩ := resolve_cons_elim hres
    have hk : k ≠ binName := fun hkb => hpath (by simp [hkb])
    exact roundtrip_cons fs k rest name ts es bin0 cs item d hck hres hitem hbin hk

/-- Witness for C3_delete_restore_roundtrip: delete the folder `Sub`
(containing the nested file `n.txt`) from `/Documents` and restore it. -/
theorem C3_delete_restore_roundtrip_witness :
    resolve (.dict [("Documents", PyVal.dict [("a.txt", PyVal.str "hi"),
        ("Sub", PyVal.dict [("n.txt", PyVal.str "x")])]),
        (binName, PyVal.dict [])]) ["Documents"]
      = some (.dict [("a.txt", PyVal.str "hi"),
          ("Sub", PyVal.dict [("n.txt", PyVal.str "x")])])
    ∧ dget [("a.txt", PyVal.str "hi"),
        ("Sub", PyVal.dict [("n.txt", PyVal.str "x")])] "Sub"
      = some (PyVal.dict [("n.txt", PyVal.str "x")])
    ∧ dget [("Documents", PyVal.dict [("a.txt", PyVal.str "hi"),
        ("Sub", PyVal.dict [("n.txt", PyVal.str "x")])]),
        (binName, PyVal.dict [])] binName = some (PyVal.dict [])
    ∧ (["Documents"].head? ≠ some binName)
    ∧ (∃ fs' fs'' es'' bin'',
        delete_selected_item [("Documents", PyVal.dict [("a.txt", PyVal.str "hi"),
            ("Sub", PyVal.dict [("n.txt", PyVal.str "x")])]),
            (binName, PyVal.dict [])] ["Documents"] "Sub" "20240101"
          = .ok fs' ("Sub" ++ "_DELETED_" ++ "20240101")
        ∧ restore_item fs' ("Sub" ++ "_DELETED_" ++ "20240101") false
            = .restored fs'' "Sub" ["Documents"]
        ∧ resolve (.dict fs'') ["Documents"] = some (.dict es'')
        ∧ dget es'' "Sub" = some (PyVal.dict [("n.txt", PyVal.str "x")])
        ∧ dget fs'' binName = some (.dict bin'')
        ∧ dget bin'' ("Sub" ++ "_DELETED_" ++ "20240101") = none) :=
  ⟨rfl, rfl, rfl, by decide,
    C3_delete_restore_roundtrip _ _ _ _ _ _ _ false rfl rfl rfl (by decide)
      (by intro h; exact absurd h (by decide))⟩

/-- Witness for C7_name_conflicts: root `{X: "", Y: "y", .recyclebin: {}}`
(1 byte used), creating/renaming onto the occupied name `X`; the inner
quota-gated file-creation conjunct is additionally discharged at
`used = 1`, `limit = 5`. -/
theorem C7_name_conflicts_witness :
    resolve (.dict [("X", PyVal.str ""), ("Y", PyVal.str "y"),
        (binName, PyVal.dict [])]) []
      = some (.dict [("X", PyVal.str ""), ("Y", PyVal.str "y"),
        (binName, PyVal.dict [])])
    ∧ hasKey [("X", PyVal.str ""), ("Y", PyVal.str "y"),
        (binName, PyVal.dict [])] "X" = true
    ∧ ("X" ≠ "")
    ∧ ("Y" ≠ "X")
    ∧ (create_folder_dialog [("X", PyVal.str ""), ("Y", PyVal.str "y"),
          (binName, PyVal.dict [])] [] "X"
        = .nameExists [("X", PyVal.str ""), ("Y", PyVal.str "y"),
            (binName, PyVal.dict [])]
      ∧ rename_selected_item [("X", PyVal.str ""), ("Y", PyVal.str "y"),
          (binName, PyVal.dict [])] [] "Y" "X"
        = .nameExists [("X", PyVal.str ""), ("Y", PyVal.str "y"),
            (binName, PyVal.dict [])]
      ∧ (∀ used, calculate_directory_size [("X", PyVal.str ""),
            ("Y", PyVal.str "y"), (binName, PyVal.dict [])] = some used →
          used < 5 →
          create_file_dialog [("X", PyVal.str ""), ("Y", PyVal.str "y"),
            (binName, PyVal.dict [])] [] "X" 5
          = .nameExists [("X", PyVal.str ""), ("Y", PyVal.str "y"),
              (binName, PyVal.dict [])]))
    ∧ create_file_dialog [("X", PyVal.str ""), ("Y", PyVal.str "y"),
        (binName, PyVal.dict [])] [] "X" 5
      = .nameExists [("X", PyVal.str ""), ("Y", PyVal.str "y"),
          (binName, PyVal.dict [])] :=
  ⟨rfl, rfl, by decide, by decide,
    C7_name_conflicts [("X", PyVal.str ""), ("Y", PyVal.str "y"),
        (binName, PyVal.dict [])] [] "X" "Y" 5
      [("X", PyVal.str ""), ("Y", PyVal.str "y"), (binName, PyVal.dict [])]
      rfl rfl (by decide) (by decide),
    (C7_name_conflicts [("X", PyVal.str ""), ("Y", PyVal.str "y"),
        (binName, PyVal.dict [])] [] "X" "Y" 5
      [("X", PyVal.str ""), ("Y", PyVal.str "y"), (binName, PyVal.dict [])]
      rfl rfl (by decide) (by decide)).2.2 1 rfl (by decide)⟩

/-- Claim C8 (confirmed): for a bin record whose recorded path no longer
fully resolves to a folder (`restoreWalk` fails), restore falls back to
the root: with no collision there, the payload is inserted at the root
under the original name, the reported restore path is the cleared `[]`,
and the token is removed from the bin — for either answer to the
conflict dialog (which is never shown). -/
theorem C8_restore_falls_back_to_root (fs : FS) (token oname : String)
    (opath : List String) (payload : PyVal) (bin : List (String × PyVal))
    (d : Bool)
    (hbin : dget fs binName = some (.dict bin))
    (htok : dget bin token = some (mkRecord oname opath payload))
    (hwalk : restoreWalk (.dict fs) opath = none)
    (hcol : hasKey fs oname = false) :
    restore_item fs token d
      = .restored (dset (dset fs oname payload) binName (.dict (ddel bin token)))
          oname []
    ∧ dget (dset (dset fs oname payload) binName (.dict (ddel bin token))) oname
        = some payload
    ∧ dget (ddel bin token) token = none := by
  have hno : oname ≠ binName := by
    intro hEq
    rw [hEq] at hcol
    simp [hasKey, hbin] at hcol
  have h1 : dget (dset fs oname payload) binName = some (.dict bin) := by
    rw [dget_dset_ne _ _ _ _ (Ne.symm hno)]
    exact hbin
  refine ⟨?_, ?_, dget_ddel_self _ _⟩
  · simp only [mkRecord] at htok
    simp [restore_item, hbin, htok, dget, hwalk, hcol, mapFolderAt, h1]
  · rw [dget_dset_ne _ _ _ _ hno]
    exact dget_dset_self _ _ _

/-- Witness for C8_restore_falls_back_to_root: the record for `a` points
at the vanished folder `Gone`; restoring lands `a` at the root. -/
theorem C8_restore_falls_back_to_root_witness :
    dget [("D", PyVal.str "f"),
        (binName, PyVal.dict [("tok1", mkRecord "a" ["Gone"] (PyVal.str "zz"))])]
        binName
      = some (.dict [("tok1", mkRecord "a" ["Gone"] (PyVal.str "zz"))])
    ∧ dget [("tok1", mkRecord "a" ["Gone"] (PyVal.str "zz"))] "tok1"
        = some (mkRecord "a" ["Gone"] (PyVal.str "zz"))
    ∧ restoreWalk (.dict [("D", PyVal.str "f"),
        (binName, PyVal.dict [("tok1", mkRecord "a" ["Gone"] (PyVal.str "zz"))])])
        ["Gone"] = none
    ∧ hasKey [("D", PyVal.str "f"),
        (binName, PyVal.dict [("tok1", mkRecord "a" ["Gone"] (PyVal.str "zz"))])]
        "a" = false
    ∧ (restore_item [("D", PyVal.str "f"),
          (binName, PyVal.dict [("tok1", mkRecord "a" ["Gone"] (PyVal.str "zz"))])]
          "tok1" false
        = .restored (dset (dset [("D", PyVal.str "f"),
            (binName, PyVal.dict [("tok1", mkRecord "a" ["Gone"] (PyVal.str "zz"))])]
            "a" (PyVal.str "zz")) binName
            (.dict (ddel [("tok1", mkRecord "a" ["Gone"] (PyVal.str "zz"))] "tok1")))
            "a" []
      ∧ dget (dset (dset [("D", PyVal.str "f"),
            (binName, PyVal.dict [("tok1", mkRecord "a" ["Gone"] (PyVal.str "zz"))])]
            "a" (PyVal.str "zz")) binName
            (.dict (ddel [("tok1", mkRecord "a" ["Gone"] (PyVal.str "zz"))] "tok1")))
            "a" = some (PyVal.str "zz")
      ∧ dget (ddel [("tok1", mkRecord "a" ["Gone"] (PyVal.str "zz"))] "tok1")
          "tok1" = none) :=
  ⟨rfl, rfl, rfl, rfl,
    C8_restore_falls_back_to_root _ _ _ _ _ _ false rfl rfl rfl rfl⟩

/-- Claim C9 (confirmed): when restore hits a collision on the original
name and the caller accepts the disambiguated name, the assignment
`restore_node[original_name + "_restored"] = content` performs no second
collision check: an existing entry of that name at the restore target
(whose original path does not lead through the recycle bin) is
overwritten with the recycled payload, and the restore reports success. -/
theorem C9_restore_overwrites_disambiguated (fs : FS) (token oname : String)
    (opath : List String) (payload old : PyVal)
    (bin tes : List (String × PyVal))
    (hbin : dget fs binName = some (.dict bin))
    (htok : dget bin token = some (mkRecord oname opath payload))
    (hwalk : restoreWalk (.dict fs) opath = some (.dict tes))
    (hcol : hasKey tes oname = true)
    (hold : dget tes (oname ++ "_restored") = some old)
    (hpath : opath.head? ≠ some binName) :
    ∃ fs'' es'',
      restore_item fs token true = .restored fs'' (oname ++ "_restored") opath
      ∧ resolve (.dict fs'') opath = some (.dict es'')
      ∧ dget es'' (oname ++ "_restored") = some payload := by
  have hres0 : resolve (.dict fs) opath = some (.dict tes) :=
    resolve_of_restoreWalk _ _ _ hwalk
  cases opath with
  | nil =>
    have hts : fs = tes := by simpa [resolve] using hres0
    subst hts
    have hfn := restored_name_ne_binName oname
    have h1 : dget (dset fs (oname ++ "_restored") payload) binName
        = some (.dict bin) := by
      rw [dget_dset_ne _ _ _ _ (Ne.symm hfn)]
      exact hbin
    refine ⟨dset (dset fs (oname ++ "_restored") payload) binName
        (.dict (ddel bin token)),
      dset (dset fs (oname ++ "_restored") payload) binName
        (.dict (ddel bin token)), ?_, rfl, ?_⟩
    · simp only [mkRecord] at htok
      simp [restore_item, hbin, htok, dget, restoreWalk, hcol, mapFolderAt, h1]
    · rw [dget_dset_ne _ _ _ _ hfn]
      exact dget_dset_self _ _ _
  | cons k rest =>
    have hk : k ≠ binName := fun hkb => hpath (by simp [hkb])
    obtain ⟨cs, hck, -⟩ := resolve_cons_elim hres0
    have hfs1r : mapFolderAt fs (k :: rest)
        (fun d2 => dset d2 (oname ++ "_restored") payload)
        = dset fs k (.dict (mapFolderAt cs rest
            (fun d2 => dset d2 (oname ++ "_restored") payload))) := by
      simp [mapFolderAt, hck]
    have hbinr : dget (mapFolderAt fs (k :: rest)
        (fun d2 => dset d2 (oname ++ "_restored") payload)) binName
        = some (.dict bin) := by
      rw [hfs1r, dget_dset_ne _ _ _ _ (Ne.symm hk)]
      exact hbin
    refine ⟨dset (mapFolderAt fs (k :: rest)
        (fun d2 => dset d2 (oname ++ "_restored") payload)) binName
        (.dict (ddel bin token)),
      dset tes (oname ++ "_restored") payload, ?_, ?_, dget_dset_self _ _ _⟩
    · simp only [mkRecord] at htok
      simp [restore_item, hbin, htok, dget, hwalk, hcol, hbinr]
    · rw [resolve_cons_dset_ne _ _ _ _ _ hk]
      exact resolve_mapFolderAt (k :: rest) _ _ _ hres0

/-- Witness for C9_restore_overwrites_disambiguated: root holds both `a`
and `a_restored`; restoring the recycled `a` with the rename accepted
overwrites `a_restored`. -/
theorem C9_restore_overwrites_disambiguated_witness :
    dget [("a", PyVal.str "1"), ("a_restored", PyVal.str "2"),
        (binName, PyVal.dict [("t", mkRecord "a" [] (PyVal.str "new"))])] binName
      = some (.dict [("t", mkRecord "a" [] (PyVal.str "new"))])
    ∧ dget [("t", mkRecord "a" [] (PyVal.str "new"))] "t"
        = some (mkRecord "a" [] (PyVal.str "new"))
    ∧ restoreWalk (.dict [("a", PyVal.str "1"), ("a_restored", PyVal.str "2"),
        (binName, PyVal.dict [("t", mkRecord "a" [] (PyVal.str "new"))])]) []
      = some (.dict [("a", PyVal.str "1"), ("a_restored", PyVal.str "2"),
          (binName, PyVal.dict [("t", mkRecord "a" [] (PyVal.str "new"))])])
    ∧ hasKey [("a", PyVal.str "1"), ("a_restored", PyVal.str "2"),
        (binName, PyVal.dict [("t", mkRecord "a" [] (PyVal.str "new"))])] "a"
      = true
    ∧ dget [("a", PyVal.str "1"), ("a_restored", PyVal.str "2"),
        (binName, PyVal.dict [("t", mkRecord "a" [] (PyVal.str "new"))])]
        ("a" ++ "_restored") = some (PyVal.str "2")
    ∧ (([] : List String).head? ≠ some binName)
    ∧ (∃ fs'' es'',
        restore_item [("a", PyVal.str "1"), ("a_restored", PyVal.str "2"),
            (binName, PyVal.dict [("t", mkRecord "a" [] (PyVal.str "new"))])]
            "t" true
          = .restored fs'' ("a" ++ "_restored") []
        ∧ resolve (.dict fs'') [] = some (.dict es'')
        ∧ dget es'' ("a" ++ "_restored") = some (PyVal.str "new")) :=
  ⟨rfl, rfl, rfl, rfl, rfl, by decide,
    C9_restore_overwrites_disambiguated _ _ _ _ _ _ _ _ rfl rfl rfl rfl rfl
      (by decide)⟩

/-- Claim C10 (confirmed): a save through `save_notepad_file` stores
`content.strip()`, the editor text with leading and trailing whitespace
removed; reading the file back at the saved location returns exactly the
stripped string, which differs from the original whenever the original
begins or ends with whitespace. -/
theorem C10_save_strips_whitespace (fs : FS) (fp : List String)
    (filename raw : String) (limit : Nat) (fs' : FS) (eff : List String)
    (h : save_notepad_file fs fp filename raw limit = .saved fs' eff)
    (hws : touchesWS raw = true) :
    read_file_view fs' eff filename = some (.str (pyStrip raw))
    ∧ pyStrip raw ≠ raw := by
  refine ⟨?_, pyStrip_ne_of_touchesWS hws⟩
  cases hw : saveWalk (.dict fs) fp with
  | some w =>
    cases w with
    | dict tes =>
      simp only [save_notepad_file, hw] at h
      split at h
      · exact absurd h (by simp)
      · split at h
        · exact absurd h (by simp)
        · split at h
          · exact absurd h (by simp)
          · rw [SaveResult.saved.injEq] at h
            obtain ⟨h1, h2⟩ := h
            subst h1
            subst h2
            have hres0 : resolve (.dict fs) fp = some (.dict tes) :=
              resolve_of_saveWalk fp _ _ hw
            have hres1 := resolve_mapFolderAt fp fs tes
              (fun d2 => dset d2 filename (.str (pyStrip raw))) hres0
            simp [read_file_view, get_current_node_eq_resolve, hres1,
              dget_dset_self]
    | str s =>
      simp only [save_notepad_file, hw] at h
      split at h
      · exact absurd h (by simp)
      · split at h
        · exact absurd h (by simp)
        · split at h
          · exact absurd h (by simp)
          · rw [SaveResult.saved.injEq] at h
            obtain ⟨h1, h2⟩ := h
            subst h1
            subst h2
            simp [read_file_view, get_current_node, mapFolderAt, dget_dset_self]
    | pylist l =>
      simp only [save_notepad_file, hw] at h
      split at h
      · exact absurd h (by simp)
      · split at h
        · exact absurd h (by simp)
        · split at h
          · exact absurd h (by simp)
          · rw [SaveResult.saved.injEq] at h
            obtain ⟨h1, h2⟩ := h
            subst h1
            subst h2
            simp [read_file_view, get_current_node, mapFolderAt, dget_dset_self]
  | none =>
    simp only [save_notepad_file, hw] at h
    split at h
    · exact absurd h (by simp)
    · split at h
      · exact absurd h (by simp)
      · split at h
        · exact absurd h (by simp)
        · rw [SaveResult.saved.injEq] at h
          obtain ⟨h1, h2⟩ := h
          subst h1
          subst h2
          simp [read_file_view, get_current_node, mapFolderAt, dget_dset_self]

/-- Witness for C10_save_strips_whitespace: saving `" hi "` to `a.txt` at
the root stores `"hi"`, and reading it back differs from the saved-in
text. -/
theorem C10_save_strips_whitespace_witness :
    save_notepad_file [(binName, PyVal.dict [])] [] "a.txt" " hi " 100
      = .saved [(binName, PyVal.dict []), ("a.txt", PyVal.str "hi")] []
    ∧ touchesWS " hi " = true
    ∧ (read_file_view [(binName, PyVal.dict []), ("a.txt", PyVal.str "hi")]
          [] "a.txt" = some (.str (pyStrip " hi "))
      ∧ pyStrip " hi " ≠ " hi ") :=
  ⟨rfl, rfl,
    C10_save_strips_whitespace [(binName, PyVal.dict [])] [] "a.txt" " hi " 100
      [(binName, PyVal.dict []), ("a.txt", PyVal.str "hi")] [] rfl rfl⟩

end Pyos
